import Mathlib

/-!
Verification of the Bungee granular time-stretcher core against its
natural-language specification.

The development is a shallow embedding of the relevant source files:
`src/Resample.h`, `src/Grain.h`, `src/Grain.cpp`, `src/Grains.cpp`,
`src/Stretcher.cpp` and `src/Instrumentation.cpp`.

IEEE doubles are modelled as `Option ℚ`, with `none` playing the role of
NaN; arithmetic on them propagates `none` exactly as IEEE arithmetic
propagates NaN.  `std::round` (round half away from zero) is modelled by
`roundAway`, and C++ float-to-int truncation by `truncQ`.
-/

namespace Bungee

/-- A C++ `double`: `none` models NaN, `some q` a finite value. -/
abbrev F := Option ℚ

/-- NaN-propagating addition. -/
def fadd (a b : F) : F := Option.map₂ (· + ·) a b

/-- NaN-propagating subtraction. -/
def fsub (a b : F) : F := Option.map₂ (· - ·) a b

/-- NaN-propagating multiplication. -/
def fmul (a b : F) : F := Option.map₂ (· * ·) a b

/-- C++ float-to-integer conversion: truncation toward zero. -/
def truncQ (x : ℚ) : ℤ := if 0 ≤ x then ⌊x⌋ else -⌊-x⌋

/-- `std::round`: round to nearest, ties away from zero. -/
def roundAway (x : ℚ) : ℤ := if 0 ≤ x then ⌊x + 1 / 2⌋ else -⌊-x + 1 / 2⌋

theorem abs_roundAway_sub_le (x : ℚ) : |(roundAway x : ℚ) - x| ≤ 1 / 2 := by
  rw [abs_le, roundAway]
  split
  · constructor
    · have h := Int.lt_floor_add_one (x + 1 / 2)
      push_cast at h ⊢
      linarith
    · have h := Int.floor_le (x + 1 / 2)
      push_cast at h ⊢
      linarith
  · constructor
    · have h := Int.floor_le (-x + 1 / 2)
      push_cast at h ⊢
      linarith
    · have h := Int.lt_floor_add_one (-x + 1 / 2)
      push_cast at h ⊢
      linarith

theorem fsub_eq_none {a b : F} : fsub a b = none ↔ a = none ∨ b = none := by
  cases a <;> cases b <;> simp [fsub, Option.map₂]

/-- `enum ResampleMode` from `bungee/Modes.h` (values referenced by `src/Resample.h`). -/
inductive ResampleMode
  | forceOut
  | forceIn
  | autoOut
  | autoIn
  | autoInOut
deriving DecidableEq

theorem autoInOut_ne_forceOut :
    (ResampleMode.autoInOut = ResampleMode.forceOut) = False :=
  eq_false fun h => ResampleMode.noConfusion h

theorem autoInOut_ne_forceIn :
    (ResampleMode.autoInOut = ResampleMode.forceIn) = False :=
  eq_false fun h => ResampleMode.noConfusion h

theorem autoInOut_ne_autoIn :
    (ResampleMode.autoInOut = ResampleMode.autoIn) = False :=
  eq_false fun h => ResampleMode.noConfusion h

theorem autoInOut_ne_autoOut :
    (ResampleMode.autoInOut = ResampleMode.autoOut) = False :=
  eq_false fun h => ResampleMode.noConfusion h

/-- `struct Request` from `bungee/Bungee.h`. -/
structure Request where
  position : F
  speed : F
  pitch : ℚ
  reset : Bool
  resampleMode : ResampleMode
deriving DecidableEq

/-- `struct InputChunk` from `bungee/Bungee.h`: half-open range of input frame offsets. -/
structure InputChunk where
  begin_ : ℤ
  end_ : ℤ
deriving DecidableEq

/-- `struct SampleRates` from `bungee/Bungee.h` (integer Hz). -/
structure SampleRates where
  input : ℤ
  output : ℤ
deriving DecidableEq

namespace Resample

/-- `Resample::Operation`: `function` is a resample-function pointer, modelled by the
Boolean `engaged` (`true` iff the pointer is non-null); `ratio` as in the source. -/
structure Operation where
  engaged : Bool := false
  ratio : ℚ := 1
deriving DecidableEq

/-- `Resample::Operations`: the per-grain input and output resample operations. -/
structure Operations where
  input : Operation := {}
  output : Operation := {}
deriving DecidableEq

/-- `Resample::Operations::setup` from `src/Resample.h`.  Returns the configured
operations together with the residual rate ratio returned by the C++ method.
The `if`/`else if` chain mirrors the source exactly; the final `else` arm is the
source's `BUNGEE_ASSERT1(false); input.function = nullptr;` fallback, which
leaves the output function engaged. -/
def Operations.setup (sampleRates : SampleRates) (pitch : ℚ) (resampleMode : ResampleMode) :
    Operations × ℚ :=
  let resampleRatio : ℚ := pitch * (sampleRates.input : ℚ) / (sampleRates.output : ℚ)
  let functions : Bool × Bool :=
    if resampleMode = ResampleMode.forceOut then (false, true)
    else if resampleMode = ResampleMode.forceIn then (true, false)
    else if resampleRatio = 1 then (false, false)
    else if resampleMode = ResampleMode.autoIn then (true, false)
    else if resampleMode = ResampleMode.autoOut then (false, true)
    else if resampleMode = ResampleMode.autoInOut ∧ resampleRatio > 1 then (true, false)
    else if resampleMode = ResampleMode.autoInOut ∧ resampleRatio < 1 then (false, true)
    else (false, true)
  let input : Operation :=
    { engaged := functions.1, ratio := if functions.1 then 1 / resampleRatio else 1 }
  let output : Operation :=
    { engaged := functions.2, ratio := if functions.2 then resampleRatio else 1 }
  let returned : ℚ :=
    if functions.2 then ((sampleRates.input : ℚ) / (sampleRates.output : ℚ)) / resampleRatio
    else (sampleRates.input : ℚ) / (sampleRates.output : ℚ)
  ({ input := input, output := output }, returned)

end Resample

/-- `Grain::Analysis` from `src/Grain.h`.  Defaults model the C++ value
initialisation `Analysis analysis{}` (all members zero). -/
structure Analysis where
  positionError : F := some 0
  hopIdeal : F := some 0
  speed : F := some 0
  hop : Option ℤ := some 0
deriving DecidableEq

/-- The per-grain state set by `Grain::specify` (spectral buffers, which the
verified claims do not touch, are omitted). -/
structure Grain where
  request : Request
  requestHop : F := some 0
  continuous : Bool := false
  passthrough : ℤ := 0
  resampleOperations : Resample.Operations := {}
  inputChunk : InputChunk := ⟨0, 0⟩
  analysis : Analysis := {}
deriving DecidableEq

/-- The grain as built by `Grain::Grain` (`src/Grain.cpp` lines 16-29): the
request position and speed are set to NaN and the pitch to 1.  `request.reset`
and `request.resampleMode` are left indeterminate by the C++ constructor and
are never read from a previous grain, so arbitrary defaults are chosen here. -/
def Grain.init : Grain :=
  { request :=
      { position := none, speed := none, pitch := 1, reset := false,
        resampleMode := ResampleMode.autoInOut } }

/-- The computation of `Grain::specify` (`src/Grain.cpp` lines 31-80) up to and
including the centred input chunk `[-halfInputFrameCount, +halfInputFrameCount)`,
before the chunk is shifted by the rounded request position. -/
def Grain.specifyCore (r : Request) (previous : Grain) (sampleRates : SampleRates)
    (log2SynthesisHop : ℕ) : Grain :=
  let setup := Resample.Operations.setup sampleRates r.pitch r.resampleMode
  let resampleOperations := setup.1
  let unitHop : ℚ := (2 ^ log2SynthesisHop : ℚ) * setup.2
  let requestHop0 := fsub r.position previous.request.position
  let requestHop :=
    if requestHop0 = none ∨ r.reset = true then fmul r.speed (some unitHop) else requestHop0
  let hopIdeal := fmul requestHop (some resampleOperations.input.ratio)
  let continuous : Bool := !r.reset && decide (previous.request.position ≠ none)
  let analysis : Analysis :=
    if continuous then
      let positionError0 := fsub previous.analysis.positionError hopIdeal
      let hop := Option.map (fun e => roundAway (-e)) positionError0
      { positionError := fadd positionError0 (Option.map (fun h : ℤ => (h : ℚ)) hop),
        hopIdeal := hopIdeal,
        speed := Option.map (fun h => h / (2 ^ log2SynthesisHop : ℚ)) hopIdeal,
        hop := hop }
    else
      { positionError := Option.map (fun p => (roundAway p : ℚ) - p) r.position,
        hopIdeal := hopIdeal,
        speed := Option.map (fun h => h / (2 ^ log2SynthesisHop : ℚ)) hopIdeal,
        hop := Option.map roundAway hopIdeal }
  let passthrough0 : ℤ :=
    match analysis.speed with
    | some s => if |s| = 1 then truncQ s else 0
    | none => 0
  let passthrough : ℤ :=
    if continuous = true ∧ passthrough0 ≠ previous.passthrough then 0 else passthrough0
  let log2TransformLength := log2SynthesisHop + 3
  let halfInputFrameCount0 : ℤ := 2 ^ log2TransformLength / 2
  let halfInputFrameCount : ℤ :=
    if resampleOperations.input.ratio ≠ 1 then
      roundAway ((halfInputFrameCount0 : ℚ) / resampleOperations.input.ratio) + 1
    else halfInputFrameCount0
  { request := r, requestHop := requestHop, continuous := continuous,
    passthrough := passthrough, resampleOperations := resampleOperations,
    inputChunk := ⟨-halfInputFrameCount, halfInputFrameCount⟩, analysis := analysis }

/-- `Grain::specify`: returns the updated grain and the returned `InputChunk`.
If the request position is NaN the source returns a default-constructed
(empty) chunk and leaves the stored chunk centred; otherwise both the stored
and the returned chunk are shifted by `round(position - bufferStartPosition)`. -/
def Grain.specify (r : Request) (previous : Grain) (sampleRates : SampleRates)
    (log2SynthesisHop : ℕ) (bufferStartPosition : ℚ) : Grain × InputChunk :=
  let grain := Grain.specifyCore r previous sampleRates log2SynthesisHop
  match r.position with
  | none => (grain, ⟨0, 0⟩)
  | some p =>
    let offset := roundAway (p - bufferStartPosition)
    let chunk : InputChunk := ⟨grain.inputChunk.begin_ + offset, grain.inputChunk.end_ + offset⟩
    ({ grain with inputChunk := chunk }, chunk)

theorem specify_fst_request (r : Request) (previous : Grain) (sampleRates : SampleRates)
    (log2SynthesisHop : ℕ) (bufferStartPosition : ℚ) :
    (Grain.specify r previous sampleRates log2SynthesisHop bufferStartPosition).1.request = r := by
  cases hp : r.position <;> simp [Grain.specify, hp, Grain.specifyCore]

theorem specify_fst_continuous (r : Request) (previous : Grain) (sampleRates : SampleRates)
    (log2SynthesisHop : ℕ) (bufferStartPosition : ℚ) :
    (Grain.specify r previous sampleRates log2SynthesisHop bufferStartPosition).1.continuous =
      (Grain.specifyCore r previous sampleRates log2SynthesisHop).continuous := by
  cases hp : r.position <;> simp [Grain.specify, hp]

theorem specify_fst_requestHop (r : Request) (previous : Grain) (sampleRates : SampleRates)
    (log2SynthesisHop : ℕ) (bufferStartPosition : ℚ) :
    (Grain.specify r previous sampleRates log2SynthesisHop bufferStartPosition).1.requestHop =
      (Grain.specifyCore r previous sampleRates log2SynthesisHop).requestHop := by
  cases hp : r.position <;> simp [Grain.specify, hp]

theorem specify_fst_analysis (r : Request) (previous : Grain) (sampleRates : SampleRates)
    (log2SynthesisHop : ℕ) (bufferStartPosition : ℚ) :
    (Grain.specify r previous sampleRates log2SynthesisHop bufferStartPosition).1.analysis =
      (Grain.specifyCore r previous sampleRates log2SynthesisHop).analysis := by
  cases hp : r.position <;> simp [Grain.specify, hp]

theorem specify_fst_passthrough (r : Request) (previous : Grain) (sampleRates : SampleRates)
    (log2SynthesisHop : ℕ) (bufferStartPosition : ℚ) :
    (Grain.specify r previous sampleRates log2SynthesisHop bufferStartPosition).1.passthrough =
      (Grain.specifyCore r previous sampleRates log2SynthesisHop).passthrough := by
  cases hp : r.position <;> simp [Grain.specify, hp]

/-- `Grains::flushed` (`src/Grains.cpp` lines 10-16): true iff no grain in the
ring has a non-NaN request position. -/
def Grains.flushed (vector : List Grain) : Bool :=
  vector.all fun grain => decide (grain.request.position = none)

/-- The four-grain ring owned by the stretcher (`grains(4)` in
`Internal::Stretcher::Stretcher`).  Index 0 is the grain being specified,
index 3 the trailing grain. -/
structure GrainsState where
  g0 : Grain
  g1 : Grain
  g2 : Grain
  g3 : Grain

/-- The ring viewed as the underlying `vector` of `Grains`. -/
def GrainsState.vector (s : GrainsState) : List Grain := [s.g0, s.g1, s.g2, s.g3]

/-- `Grains::rotate`: the slot that was `back` becomes `front`.  The paired
buffer swaps between slots 0 and 2 exchange only spectral buffers, which are
not part of this model. -/
def GrainsState.rotate (s : GrainsState) : GrainsState := ⟨s.g3, s.g0, s.g1, s.g2⟩

/-- `isFlushed` as dispatched by `Internal::Functions` (`src/Stretcher.h`):
`grains.flushed()`. -/
def GrainsState.flushed (s : GrainsState) : Bool := Grains.flushed s.vector

/-- `Internal::Stretcher::specifyGrain` (`src/Stretcher.cpp` lines 27-38):
rotate the ring, then specify grain 0 against grain 1. -/
def Stretcher.specifyGrain (s : GrainsState) (request : Request) (sampleRates : SampleRates)
    (log2SynthesisHop : ℕ) (bufferStartPosition : ℚ) : GrainsState × InputChunk :=
  let s := s.rotate
  let result := Grain.specify request s.g1 sampleRates log2SynthesisHop bufferStartPosition
  ({ s with g0 := result.1 }, result.2)

/-- The ring immediately after `Internal::Stretcher::Stretcher`: four grains
fresh from `Grain::Grain`. -/
def Stretcher.initGrains : GrainsState := ⟨Grain.init, Grain.init, Grain.init, Grain.init⟩

/-- The three stretcher operations guarded by `Instrumentation::Call`. -/
inductive StretcherOp
  | specifyGrain
  | analyseGrain
  | synthesiseGrain
deriving DecidableEq

/-- The `sequence` argument each stretcher operation passes to
`Instrumentation::Call` (`src/Stretcher.cpp` lines 29, 42, 88). -/
def StretcherOp.sequence : StretcherOp → ℕ
  | .specifyGrain => 0
  | .analyseGrain => 1
  | .synthesiseGrain => 2

/-- `Instrumentation::Call::Call` (`src/Instrumentation.cpp` lines 47-60):
`none` models the `std::abort()` on an out-of-order call; otherwise the
guard state advances to `(sequence + 1) % 3`. -/
def Instrumentation.call (expected : ℕ) (op : StretcherOp) : Option ℕ :=
  if op.sequence ≠ expected then none
  else some ((op.sequence + 1) % 3)

/-- Runs a sequence of stretcher operations through the instrumentation guard,
starting from guard state `expected` (a fresh `Instrumentation` has
`expected = 0`).  `none` means some call aborted the process. -/
def Instrumentation.run (expected : ℕ) : List StretcherOp → Option ℕ
  | [] => some expected
  | op :: ops =>
    match Instrumentation.call expected op with
    | none => none
    | some e => Instrumentation.run e ops

namespace Resample

/-- `Resample::RatioState` (`src/Resample.h` lines 114-155).  The constant-ratio
specialisation is the special case `ratioGradient = 0` of this state (the
source asserts the gradient is zero there and omits the addition). -/
structure RatioState where
  ratioGradient : ℚ
  ratio : ℚ
  x : ℚ

/-- One `RatioState::step`: `x += ratio; ratio += ratioGradient`. -/
def RatioState.step (s : RatioState) : RatioState :=
  { s with x := s.x + s.ratio, ratio := s.ratio + s.ratioGradient }

/-- `Bilinear::step` in input mode (`src/Resample.h` lines 94-112 with the
`filterTap<Input>` accumulation of lines 69-78): both taps accumulate
`external * (coefficient * gain)` into the internal grid.  The internal array
is indexed by (frame, channel). -/
def Bilinear.stepInput (x : ℚ) (channelCount : ℕ) (internal : ℤ → ℕ → ℚ)
    (externalRow : ℕ → ℚ) (gain : ℚ) : ℤ → ℕ → ℚ :=
  let integer : ℤ := truncQ x
  let fraction : ℚ := x - (integer : ℚ)
  fun i c =>
    if c < channelCount ∧ i = integer + 1 then internal i c + externalRow c * (fraction * gain)
    else if c < channelCount ∧ i = integer then
      internal i c + externalRow c * ((1 - fraction) * gain)
    else internal i c

/-- `Bilinear::step` in output mode: the first tap assigns
`internal[integer+1] * fraction` to the external row and the second adds
`internal[integer] * (1 - fraction)`; channels at or beyond `channelCount`
are untouched. -/
def Bilinear.stepOutput (x : ℚ) (channelCount : ℕ) (internal : ℤ → ℕ → ℚ)
    (externalRow : ℕ → ℚ) : ℕ → ℚ :=
  let integer : ℤ := truncQ x
  let fraction : ℚ := x - (integer : ℚ)
  fun c =>
    if c < channelCount then
      internal (integer + 1) c * fraction + internal integer c * (1 - fraction)
    else externalRow c

/-- One iteration of `Resample::Loop::run` with `Mode = Input`: the row is
accumulated only when inside `[unmutedBegin, unmutedEnd)`, and the ratio state
steps unconditionally. -/
def Loop.inputStep (channelCount : ℕ) (external : ℕ → ℕ → ℚ) (unmutedBegin unmutedEnd : ℤ)
    (st : RatioState × (ℤ → ℕ → ℚ)) (row : ℕ) : RatioState × (ℤ → ℕ → ℚ) :=
  let accumulated :=
    if unmutedBegin ≤ (row : ℤ) ∧ (row : ℤ) < unmutedEnd then
      Bilinear.stepInput st.1.x channelCount st.2 (external row) st.1.ratio
    else st.2
  (st.1.step, accumulated)

/-- `Resample::Loop::run` with `Mode = Input` (`src/Resample.h` lines 157-181):
the internal accumulator is zeroed (`internal.array.setZero()`), then each row
of the external buffer in `[0, activeFrameCount)` is visited in order. -/
def Loop.runInput (channelCount : ℕ) (internal : ℤ → ℕ → ℚ) (external : ℕ → ℕ → ℚ)
    (unmutedBegin unmutedEnd : ℤ) (activeFrameCount : ℕ) (ratioState : RatioState) :
    RatioState × (ℤ → ℕ → ℚ) :=
  let _ := internal
  (List.range activeFrameCount).foldl
    (Loop.inputStep channelCount external unmutedBegin unmutedEnd)
    (ratioState, fun _ _ => 0)

/-- One iteration of `Resample::Loop::run` with `Mode = Output`: the row is
written only when inside `[unmutedBegin, unmutedEnd)`, and the ratio state
steps unconditionally. -/
def Loop.outputStep (channelCount : ℕ) (internal : ℤ → ℕ → ℚ) (unmutedBegin unmutedEnd : ℤ)
    (st : RatioState × (ℕ → ℕ → ℚ)) (row : ℕ) : RatioState × (ℕ → ℕ → ℚ) :=
  let written :=
    if unmutedBegin ≤ (row : ℤ) ∧ (row : ℤ) < unmutedEnd then
      fun r c =>
        if r = row then Bilinear.stepOutput st.1.x channelCount internal (st.2 row) c
        else st.2 r c
    else st.2
  (st.1.step, written)

/-- `Resample::Loop::run` with `Mode = Output`: each row of the external buffer
in `[0, activeFrameCount)` is visited in order. -/
def Loop.runOutput (channelCount : ℕ) (internal : ℤ → ℕ → ℚ) (external : ℕ → ℕ → ℚ)
    (unmutedBegin unmutedEnd : ℤ) (activeFrameCount : ℕ) (ratioState : RatioState) :
    RatioState × (ℕ → ℕ → ℚ) :=
  (List.range activeFrameCount).foldl
    (Loop.outputStep channelCount internal unmutedBegin unmutedEnd)
    (ratioState, external)

end Resample

/-- `std::clamp(v, lo, hi)` as used by `Grain::inputChunkMap`. -/
def clampInt (v lo hi : ℤ) : ℤ := if v < lo then lo else if hi < v then hi else v

/-- The mute-count normalisation of `Grain::inputChunkMap` (`src/Grain.h`
lines 78-101): a null data pointer forces the whole chunk to be muted from the
head; both counts are then clamped to `[0, frameCount]`. -/
def Grain.inputChunkMapMutes (inputChunk : InputChunk) (dataIsNull : Bool)
    (muteFrameCountHead muteFrameCountTail : ℤ) : ℤ × ℤ :=
  let frameCount := inputChunk.end_ - inputChunk.begin_
  let head := if dataIsNull then frameCount else muteFrameCountHead
  let tail := if dataIsNull then 0 else muteFrameCountTail
  (clampInt head 0 frameCount, clampInt tail 0 frameCount)

/-- Modelled from the spec: `src/Synthesis.h` (the computation of
`grain.rotation`) is not part of the available sources.  Section 4.10 and the
glossary state that a passthrough grain "forwards the analysis spectrum with
no phase rotation", so the per-bin synthesis rotation is zero whenever the
grain's passthrough fast path is armed, and otherwise is the horizontal
phase-propagation value, abstracted here as `phaseRotation`. -/
def synthesisRotation (phaseRotation : ℕ → ℤ) (grain : Grain) (bin : ℕ) : ℤ :=
  if grain.passthrough ≠ 0 then 0 else phaseRotation bin


/-- C9: immediately after construction and before any `specifyGrain` call,
`isFlushed()` returns true: every grain in the ring is `Grain.init`, whose
request position is NaN and whose request pitch is 1. -/
theorem c9_fresh_stretcher_is_flushed :
    Stretcher.initGrains.flushed = true ∧
      Grain.init.request.position = none ∧ Grain.init.request.pitch = 1 := by
  decide

/-- C2 counterexample: with sample rates 48000/48000, pitch 1 and mode
`forceIn`, the ratio `r = pitch * input / output` equals 1 and yet the input
resampler engages (the `forceIn` branch precedes the `r == 1` branch in
`Operations::setup`), contradicting the claim that whenever `r == 1` neither
resampler engages regardless of mode. -/
theorem c2_counterexample_forceIn_unity_ratio :
    (1 : ℚ) * ((48000 : ℤ) : ℚ) / ((48000 : ℤ) : ℚ) = 1 ∧
      (Resample.Operations.setup ⟨48000, 48000⟩ 1 ResampleMode.forceIn).1.input.engaged = true := by
  constructor
  · norm_num
  · decide

/-- C2 amended: `Operations::setup` selects resamplers as follows, with
`r = pitch * sampleRates.input / sampleRates.output`: `forceIn` engages the
input resampler (ratio `1/r`) and disengages the output even when `r = 1`;
`forceOut` symmetrically engages only the output (ratio `r`); the `auto`
modes engage neither when `r = 1`, and otherwise `autoIn` engages the input,
`autoOut` the output, and `autoInOut` the input when `r > 1` and the output
when `r < 1`; a disengaged side always reports ratio 1. -/
theorem c2_amended_setup_selection (sampleRates : SampleRates) (pitch : ℚ)
    (resampleMode : ResampleMode) :
    (Resample.Operations.setup sampleRates pitch resampleMode).1 =
      (let r : ℚ := pitch * (sampleRates.input : ℚ) / (sampleRates.output : ℚ)
      match resampleMode with
      | ResampleMode.forceIn => ⟨⟨true, 1 / r⟩, ⟨false, 1⟩⟩
      | ResampleMode.forceOut => ⟨⟨false, 1⟩, ⟨true, r⟩⟩
      | ResampleMode.autoIn =>
          if r = 1 then ⟨⟨false, 1⟩, ⟨false, 1⟩⟩ else ⟨⟨true, 1 / r⟩, ⟨false, 1⟩⟩
      | ResampleMode.autoOut =>
          if r = 1 then ⟨⟨false, 1⟩, ⟨false, 1⟩⟩ else ⟨⟨false, 1⟩, ⟨true, r⟩⟩
      | ResampleMode.autoInOut =>
          if r > 1 then ⟨⟨true, 1 / r⟩, ⟨false, 1⟩⟩
          else if r < 1 then ⟨⟨false, 1⟩, ⟨true, r⟩⟩
          else ⟨⟨false, 1⟩, ⟨false, 1⟩⟩) := by
  cases resampleMode <;>
    simp only [Resample.Operations.setup] <;>
    split_ifs <;>
    first
      | rfl
      | (simp_all <;> (rename_i hne hle hge; exact absurd (le_antisymm hle hge) hne))

/-- C10: `Grain::inputChunkMap` mute handling.  With a null data pointer the
head mute count becomes the chunk's frame count and the tail mute count 0;
with data present both counts are clamped into `[0, frameCount]`, values
already in range passing through unchanged. -/
theorem c10_input_chunk_map_mutes (chunk : InputChunk) (head tail : ℤ)
    (hfc : 0 ≤ chunk.end_ - chunk.begin_) :
    Grain.inputChunkMapMutes chunk true head tail = (chunk.end_ - chunk.begin_, 0) ∧
      (0 ≤ (Grain.inputChunkMapMutes chunk false head tail).1 ∧
        (Grain.inputChunkMapMutes chunk false head tail).1 ≤ chunk.end_ - chunk.begin_ ∧
        0 ≤ (Grain.inputChunkMapMutes chunk false head tail).2 ∧
        (Grain.inputChunkMapMutes chunk false head tail).2 ≤ chunk.end_ - chunk.begin_) ∧
      (0 ≤ head → head ≤ chunk.end_ - chunk.begin_ →
        (Grain.inputChunkMapMutes chunk false head tail).1 = head) ∧
      (0 ≤ tail → tail ≤ chunk.end_ - chunk.begin_ →
        (Grain.inputChunkMapMutes chunk false head tail).2 = tail) := by
  simp only [Grain.inputChunkMapMutes, clampInt, Prod.mk.injEq]
  split_ifs <;> constructor <;> simp_all <;> omega

/-- Witness for C10 at a concrete chunk `[0, 10)` with mute requests 3 and 99. -/
theorem c10_witness :
    Grain.inputChunkMapMutes ⟨0, 10⟩ true 3 99 = (10, 0) ∧
      Grain.inputChunkMapMutes ⟨0, 10⟩ false 3 99 = (3, 10) := by
  have h := c10_input_chunk_map_mutes ⟨0, 10⟩ 3 99 (by decide)
  refine ⟨h.1, ?_⟩
  decide

theorem Instrumentation.run_ne_none_iff (e : ℕ) (he : e < 3) (ops : List StretcherOp) :
    Instrumentation.run e ops ≠ none ↔
      ∀ i : Fin ops.length, (ops.get i).sequence = (e + (i : ℕ)) % 3 := by
  induction ops generalizing e with
  | nil => simp [Instrumentation.run]
  | cons op ops ih =>
    by_cases hseq : op.sequence = e
    · have h3 : (e + 1) % 3 < 3 := Nat.mod_lt _ (by norm_num)
      have hrun : Instrumentation.run e (op :: ops) =
          Instrumentation.run ((e + 1) % 3) ops := by
        simp [Instrumentation.run, Instrumentation.call, hseq]
      rw [hrun, ih _ h3]
      constructor
      · intro h i
        refine Fin.cases ?_ ?_ i
        · simpa [hseq] using (Nat.mod_eq_of_lt he).symm
        · intro j
          have hj := h j
          have harith : ((e + 1) % 3 + (j : ℕ)) % 3 = (e + ((j : ℕ) + 1)) % 3 := by omega
          simpa [harith] using hj
      · intro h j
        have hj := h j.succ
        have harith : ((e + 1) % 3 + (j : ℕ)) % 3 = (e + ((j : ℕ) + 1)) % 3 := by omega
        simpa [harith] using hj
    · have hrun : Instrumentation.run e (op :: ops) = none := by
        simp [Instrumentation.run, Instrumentation.call, hseq]
      rw [hrun]
      simp only [ne_eq, not_true_eq_false, false_iff, not_forall]
      refine ⟨⟨0, by simp⟩, ?_⟩
      simpa [Nat.mod_eq_of_lt he] using hseq

/-- C4: calls on one stretcher must follow the strict cycle
`specifyGrain -> analyseGrain -> synthesiseGrain -> specifyGrain ...`.
Running a list of operations through the instrumentation guard from its
initial state never aborts (returns `some` guard state) precisely when every
operation is the one the cycle expects at its index; any deviation makes the
guard abort (the model's `none`, the source's `std::abort()`), and a
conforming trace never aborts. -/
theorem c4_strict_call_cycle (ops : List StretcherOp) :
    Instrumentation.run 0 ops ≠ none ↔
      ∀ i : Fin ops.length, (ops.get i).sequence = (i : ℕ) % 3 := by
  simpa using Instrumentation.run_ne_none_iff 0 (by norm_num) ops

/-- A NaN-position flush request, used to exercise the flush behaviour. -/
def c5NanRequest : Request :=
  { position := none, speed := some 1, pitch := 1, reset := false,
    resampleMode := ResampleMode.autoInOut }

/-- A valid request at position 0, used to exercise the flush behaviour. -/
def c5ValidRequest : Request :=
  { position := some 0, speed := some 1, pitch := 1, reset := false,
    resampleMode := ResampleMode.autoInOut }

/-- C5 counterexample: the grain ring holds four grains, so after one valid
grain, three consecutive NaN-position `specifyGrain` calls are NOT enough to
flush the stretcher: the valid grain is still in ring slot 3 and `isFlushed()`
returns false, contradicting the claim that at least 3 consecutive NaN grains
suffice. -/
theorem c5_counterexample_three_nan_grains :
    ((Stretcher.specifyGrain
        ((Stretcher.specifyGrain
            ((Stretcher.specifyGrain
                ((Stretcher.specifyGrain Stretcher.initGrains c5ValidRequest
                    ⟨48000, 48000⟩ 6 0).1)
                c5NanRequest ⟨48000, 48000⟩ 6 0).1)
            c5NanRequest ⟨48000, 48000⟩ 6 0).1)
        c5NanRequest ⟨48000, 48000⟩ 6 0).1).flushed = false := by
  decide

/-- C5 amended: after `specifyGrain` is called with NaN-position requests for
at least 4 consecutive grains (the depth of the grain ring), `isFlushed()`
returns true, from any prior ring state; and `isFlushed()` returns true
exactly when every grain in the ring has a NaN request position. -/
theorem c5_amended_flush_after_four (s : GrainsState) (r1 r2 r3 r4 : Request)
    (sampleRates : SampleRates) (log2SynthesisHop : ℕ) (b1 b2 b3 b4 : ℚ)
    (h1 : r1.position = none) (h2 : r2.position = none) (h3 : r3.position = none)
    (h4 : r4.position = none) :
    ((Stretcher.specifyGrain
        ((Stretcher.specifyGrain
            ((Stretcher.specifyGrain
                ((Stretcher.specifyGrain s r1 sampleRates log2SynthesisHop b1).1)
                r2 sampleRates log2SynthesisHop b2).1)
            r3 sampleRates log2SynthesisHop b3).1)
        r4 sampleRates log2SynthesisHop b4).1).flushed = true ∧
      ∀ t : GrainsState, t.flushed = true ↔
        (t.g0.request.position = none ∧ t.g1.request.position = none ∧
          t.g2.request.position = none ∧ t.g3.request.position = none) := by
  constructor
  · simp [Stretcher.specifyGrain, GrainsState.rotate, GrainsState.flushed, GrainsState.vector,
      Grains.flushed, specify_fst_request, h1, h2, h3, h4]
  · intro t
    simp [GrainsState.flushed, GrainsState.vector, Grains.flushed, and_assoc]

/-- Witness for C5 amended: four NaN grains on a fresh stretcher flush it. -/
theorem c5_amended_witness :
    ((Stretcher.specifyGrain
        ((Stretcher.specifyGrain
            ((Stretcher.specifyGrain
                ((Stretcher.specifyGrain Stretcher.initGrains c5NanRequest
                    ⟨48000, 48000⟩ 6 0).1)
                c5NanRequest ⟨48000, 48000⟩ 6 0).1)
            c5NanRequest ⟨48000, 48000⟩ 6 0).1)
        c5NanRequest ⟨48000, 48000⟩ 6 0).1).flushed = true :=
  (c5_amended_flush_after_four Stretcher.initGrains c5NanRequest c5NanRequest c5NanRequest
      c5NanRequest ⟨48000, 48000⟩ 6 0 0 0 0 rfl rfl rfl rfl).1

/-- C1: in `Grain::specify`, `requestHop` is the difference of consecutive
request positions, falling back to `request.speed * unitHop` (with
`unitHop = 2^log2SynthesisHop` times the residual ratio returned by
`Operations::setup`) when either position is NaN or the request is a reset;
`hopIdeal = requestHop * inputResampleRatio`; and when the grain is continuous
(not a reset and previous position not NaN) `analysis.hop =
round(hopIdeal - previous.positionError)` with `positionError =
previous.positionError - hopIdeal + analysis.hop`, otherwise
`analysis.hop = round(hopIdeal)` and `positionError = round(request.position)
- request.position`. -/
theorem c1_specify_hop_and_position_error (r : Request) (previous : Grain)
    (sampleRates : SampleRates) (log2SynthesisHop : ℕ) (bufferStartPosition : ℚ) :
    (Grain.specify r previous sampleRates log2SynthesisHop bufferStartPosition).1.requestHop =
      (if r.position = none ∨ previous.request.position = none ∨ r.reset = true
        then fmul r.speed (some ((2 ^ log2SynthesisHop : ℚ) *
          (Resample.Operations.setup sampleRates r.pitch r.resampleMode).2))
        else fsub r.position previous.request.position) ∧
    (Grain.specify r previous sampleRates log2SynthesisHop bufferStartPosition).1.analysis.hopIdeal =
      fmul (Grain.specify r previous sampleRates log2SynthesisHop bufferStartPosition).1.requestHop
        (some (Resample.Operations.setup sampleRates r.pitch r.resampleMode).1.input.ratio) ∧
    (Grain.specify r previous sampleRates log2SynthesisHop bufferStartPosition).1.continuous =
      (!r.reset && decide (previous.request.position ≠ none)) ∧
    (Grain.specify r previous sampleRates log2SynthesisHop bufferStartPosition).1.analysis.hop =
      (if (Grain.specify r previous sampleRates log2SynthesisHop bufferStartPosition).1.continuous
        then Option.map roundAway
          (fsub (Grain.specify r previous sampleRates log2SynthesisHop
              bufferStartPosition).1.analysis.hopIdeal
            previous.analysis.positionError)
        else Option.map roundAway
          (Grain.specify r previous sampleRates log2SynthesisHop
            bufferStartPosition).1.analysis.hopIdeal) ∧
    (Grain.specify r previous sampleRates log2SynthesisHop
        bufferStartPosition).1.analysis.positionError =
      (if (Grain.specify r previous sampleRates log2SynthesisHop bufferStartPosition).1.continuous
        then fadd
          (fsub previous.analysis.positionError
            (Grain.specify r previous sampleRates log2SynthesisHop
              bufferStartPosition).1.analysis.hopIdeal)
          (Option.map (fun h : ℤ => (h : ℚ))
            (Grain.specify r previous sampleRates log2SynthesisHop
              bufferStartPosition).1.analysis.hop)
        else fsub (Option.map (fun p => (roundAway p : ℚ)) r.position) r.position) := by
  simp only [specify_fst_requestHop, specify_fst_analysis, specify_fst_continuous]
  simp only [Grain.specifyCore]
  rcases hp : r.position with _ | p <;>
    rcases hq : previous.request.position with _ | q <;>
    rcases hr : r.reset <;>
    rcases he : previous.analysis.positionError with _ | e0 <;>
    rcases hs : r.speed with _ | sp <;>
    simp [hp, hq, hr, he, hs, fsub, fadd, fmul, Option.map₂, neg_sub]

/-- C8: for every `Grain::specify` call whose request position is finite and
whose previous grain carries a finite `positionError`, the resulting
`analysis.positionError` is finite and satisfies
`|analysis.positionError| <= 1/2`, in both the continuous and the
non-continuous branch. -/
theorem c8_position_error_bound (r : Request) (previous : Grain)
    (sampleRates : SampleRates) (log2SynthesisHop : ℕ) (bufferStartPosition : ℚ)
    (p e0 : ℚ) (hp : r.position = some p)
    (he : previous.analysis.positionError = some e0) :
    ∃ e : ℚ,
      (Grain.specify r previous sampleRates log2SynthesisHop
          bufferStartPosition).1.analysis.positionError = some e ∧ |e| ≤ 1 / 2 := by
  simp only [specify_fst_analysis, Grain.specifyCore]
  rcases hr : r.reset
  · rcases hq : previous.request.position with _ | q
    · simp only [hp, hq, he, fsub, fadd, fmul, Option.map₂]
      simp
      simpa using abs_roundAway_sub_le p
    · simp only [hp, hq, he, fsub, fadd, fmul, Option.map₂]
      simp [neg_sub]
      have h := abs_roundAway_sub_le
        ((p - q) * (Resample.Operations.setup sampleRates r.pitch r.resampleMode).1.input.ratio
          - e0)
      rw [show e0 -
            (p - q) * (Resample.Operations.setup sampleRates r.pitch r.resampleMode).1.input.ratio
            + (roundAway ((p - q) *
                (Resample.Operations.setup sampleRates r.pitch r.resampleMode).1.input.ratio
                - e0) : ℚ) =
          (roundAway ((p - q) *
              (Resample.Operations.setup sampleRates r.pitch r.resampleMode).1.input.ratio
              - e0) : ℚ) -
            ((p - q) * (Resample.Operations.setup sampleRates r.pitch r.resampleMode).1.input.ratio
              - e0) from by ring]
      simpa using h
  · simp only [hp, he, fsub, fadd, fmul, Option.map₂]
    simp
    simpa using abs_roundAway_sub_le p

/-- Witness request for C8 at fractional position 41/4. -/
def c8Request : Request :=
  { position := some (41 / 4), speed := some 1, pitch := 1, reset := false,
    resampleMode := ResampleMode.autoInOut }

/-- Witness for C8 against a fresh previous grain. -/
theorem c8_witness :
    ∃ e : ℚ,
      (Grain.specify c8Request Grain.init ⟨48000, 48000⟩ 6 0).1.analysis.positionError =
        some e ∧ |e| ≤ 1 / 2 :=
  c8_position_error_bound c8Request Grain.init ⟨48000, 48000⟩ 6 0 (41 / 4) 0 rfl rfl

theorem passthroughGuard (sOpt : Option ℚ) (cont : Bool) (prevPass : ℤ) :
    (if cont = true ∧ (match sOpt with
        | some s => if |s| = 1 then truncQ s else 0
        | none => 0) ≠ prevPass then 0
      else (match sOpt with
        | some s => if |s| = 1 then truncQ s else 0
        | none => 0)) =
      (match sOpt with
        | some s => if |s| = 1 ∧ (cont = false ∨ prevPass = truncQ s) then truncQ s else 0
        | none => (0 : ℤ)) := by
  rcases sOpt with _ | sp
  · cases cont <;> simp
  · cases cont <;> by_cases h1 : |sp| = 1 <;> by_cases h2 : truncQ sp = prevPass <;>
      simp_all <;> omega

/-- Request with `reset = true` arriving at unity effective speed. -/
def c7Request : Request :=
  { position := some 100, speed := some 1, pitch := 1, reset := true,
    resampleMode := ResampleMode.autoInOut }

/-- C7 counterexample: a reset grain (hence not continuous) with
`|analysis.speed| = 1` arms the passthrough fast path even though the previous
grain was not passthrough, refuting the claim that passthrough is armed only
when the previous grain was also passthrough. -/
theorem c7_counterexample_reset_arms_passthrough :
    ¬(((Grain.specify c7Request Grain.init ⟨48000, 48000⟩ 6 0).1.passthrough ≠ 0) ↔
        (((Grain.specify c7Request Grain.init ⟨48000, 48000⟩ 6 0).1.analysis.speed = some 1 ∨
            (Grain.specify c7Request Grain.init ⟨48000, 48000⟩ 6 0).1.analysis.speed =
              some (-1)) ∧
          Grain.init.passthrough ≠ 0)) := by
  have hpass : (Grain.specify c7Request Grain.init ⟨48000, 48000⟩ 6 0).1.passthrough = 1 := by
    simp only [specify_fst_passthrough]
    norm_num [Grain.specifyCore, Resample.Operations.setup, c7Request, Grain.init, fsub, fadd,
      fmul, Option.map₂, truncQ, roundAway]
  have hprev : Grain.init.passthrough = 0 := rfl
  simp [hpass, hprev]

/-- C7 amended: `Grain::specify` arms the passthrough fast path
(`passthrough = int(analysis.speed)`, i.e. +1 or -1) when
`|analysis.speed| = 1` and, additionally for continuous grains only, the
previous grain's `passthrough` equals `int(analysis.speed)`; for
non-continuous grains `|analysis.speed| = 1` alone arms it; `passthrough = 0`
otherwise.  When armed, synthesis applies no phase rotation: the rotation for
every bin is zero. -/
theorem c7_amended_passthrough (r : Request) (previous : Grain)
    (sampleRates : SampleRates) (log2SynthesisHop : ℕ) (bufferStartPosition : ℚ) :
    (Grain.specify r previous sampleRates log2SynthesisHop bufferStartPosition).1.passthrough =
      (match (Grain.specify r previous sampleRates log2SynthesisHop
          bufferStartPosition).1.analysis.speed with
        | some s =>
          if |s| = 1 ∧
              ((Grain.specify r previous sampleRates log2SynthesisHop
                  bufferStartPosition).1.continuous = false ∨
                previous.passthrough = truncQ s)
            then truncQ s else 0
        | none => 0) ∧
      ∀ (phaseRotation : ℕ → ℤ) (bin : ℕ),
        (Grain.specify r previous sampleRates log2SynthesisHop
            bufferStartPosition).1.passthrough ≠ 0 →
        synthesisRotation phaseRotation
          (Grain.specify r previous sampleRates log2SynthesisHop bufferStartPosition).1 bin =
          0 := by
  constructor
  · simp only [specify_fst_passthrough, specify_fst_analysis, specify_fst_continuous,
      Grain.specifyCore, apply_ite Analysis.speed, ite_self]
    exact passthroughGuard _ _ _
  · intro phaseRotation bin h
    simp [synthesisRotation, h]

/-- Witness for C7 amended: at the reset unity-speed request the passthrough
path is armed and the synthesis rotation of bin 0 is zero. -/
theorem c7_amended_witness :
    synthesisRotation (fun _ => 5) (Grain.specify c7Request Grain.init ⟨48000, 48000⟩ 6 0).1 0 =
      0 := by
  have hpass : (Grain.specify c7Request Grain.init ⟨48000, 48000⟩ 6 0).1.passthrough = 1 := by
    simp only [specify_fst_passthrough]
    norm_num [Grain.specifyCore, Resample.Operations.setup, c7Request, Grain.init, fsub, fadd,
      fmul, Option.map₂, truncQ, roundAway]
  exact (c7_amended_passthrough c7Request Grain.init ⟨48000, 48000⟩ 6 0).2 (fun _ => 5) 0
    (by rw [hpass]; norm_num)

theorem outputStep_foldl_muted (channelCount : ℕ) (internal : ℤ → ℕ → ℚ)
    (unmutedBegin unmutedEnd : ℤ) (rows : List ℕ)
    (st : Resample.RatioState × (ℕ → ℕ → ℚ)) (row c : ℕ)
    (h : ¬(unmutedBegin ≤ (row : ℤ) ∧ (row : ℤ) < unmutedEnd)) :
    (rows.foldl (Resample.Loop.outputStep channelCount internal unmutedBegin unmutedEnd)
        st).2 row c = st.2 row c := by
  induction rows generalizing st with
  | nil => rfl
  | cons r rows ih =>
    rw [List.foldl_cons, ih]
    simp only [Resample.Loop.outputStep]
    split_ifs with hr
    · have hne : row ≠ r := by
        rintro rfl
        exact h hr
      simp [hne]
    · rfl

theorem inputStep_foldl_congr (channelCount : ℕ) (unmutedBegin unmutedEnd : ℤ)
    (rows : List ℕ) (e1 e2 : ℕ → ℕ → ℚ)
    (h : ∀ (r c : ℕ), unmutedBegin ≤ (r : ℤ) → (r : ℤ) < unmutedEnd → e1 r c = e2 r c)
    (st : Resample.RatioState × (ℤ → ℕ → ℚ)) :
    rows.foldl (Resample.Loop.inputStep channelCount e1 unmutedBegin unmutedEnd) st =
      rows.foldl (Resample.Loop.inputStep channelCount e2 unmutedBegin unmutedEnd) st := by
  induction rows generalizing st with
  | nil => rfl
  | cons r rows ih =>
    rw [List.foldl_cons, List.foldl_cons, ih]
    congr 1
    simp only [Resample.Loop.inputStep]
    split_ifs with hr
    · have hrow : e1 r = e2 r := funext fun c => h r c hr.1 hr.2
      rw [hrow]
    · rfl

/-- C6 counterexample: in output mode, an external row outside
`[unmutedBegin, unmutedEnd)` does NOT receive zero: `Loop::run` simply skips
it, leaving its previous contents.  Here a 2-row run with `unmutedBegin = 1`
leaves the initial value 5 in row 0. -/
theorem c6_counterexample_output_muted_row_kept :
    (Resample.Loop.runOutput 1 (fun _ _ => 0) (fun row _ => if row = 0 then 5 else 7) 1 2 2
        ⟨0, 1, 0⟩).2 0 0 = 5 ∧ (5 : ℚ) ≠ 0 := by
  constructor
  · rfl
  · norm_num

/-- C6 amended: in `Resample::Loop::run`, output-mode external rows outside
`[unmutedBegin, unmutedEnd)` are left unmodified (not written, hence not
zeroed by the loop); in input mode, rows outside the range contribute nothing
to the accumulated internal buffer and rows inside the range are the only ones
read from the external buffer: two external buffers that agree on the unmuted
range produce identical accumulation results. -/
theorem c6_amended_mute_range_behaviour :
    (∀ (channelCount : ℕ) (internal : ℤ → ℕ → ℚ) (external : ℕ → ℕ → ℚ)
        (unmutedBegin unmutedEnd : ℤ) (activeFrameCount : ℕ)
        (ratioState : Resample.RatioState) (row c : ℕ),
      ¬(unmutedBegin ≤ (row : ℤ) ∧ (row : ℤ) < unmutedEnd) →
      (Resample.Loop.runOutput channelCount internal external unmutedBegin unmutedEnd
          activeFrameCount ratioState).2 row c = external row c) ∧
    ∀ (channelCount : ℕ) (internal : ℤ → ℕ → ℚ) (e1 e2 : ℕ → ℕ → ℚ)
        (unmutedBegin unmutedEnd : ℤ) (activeFrameCount : ℕ)
        (ratioState : Resample.RatioState),
      (∀ (r c : ℕ), unmutedBegin ≤ (r : ℤ) → (r : ℤ) < unmutedEnd → e1 r c = e2 r c) →
      Resample.Loop.runInput channelCount internal e1 unmutedBegin unmutedEnd
          activeFrameCount ratioState =
        Resample.Loop.runInput channelCount internal e2 unmutedBegin unmutedEnd
          activeFrameCount ratioState := by
  constructor
  · intro channelCount internal external unmutedBegin unmutedEnd activeFrameCount ratioState
      row c h
    exact outputStep_foldl_muted channelCount internal unmutedBegin unmutedEnd _ _ row c h
  · intro channelCount internal e1 e2 unmutedBegin unmutedEnd activeFrameCount ratioState h
    exact inputStep_foldl_congr channelCount unmutedBegin unmutedEnd _ e1 e2 h _

/-- Witness for C6 amended: a muted output row keeps its initial value 9, and
an input run cannot distinguish two externals that differ only at muted
rows. -/
theorem c6_amended_witness :
    (Resample.Loop.runOutput 1 (fun _ _ => 0) (fun _ _ => 9) 1 2 2 ⟨0, 1, 0⟩).2 0 0 = 9 ∧
      Resample.Loop.runInput 1 (fun _ _ => 0) (fun r _ => (r : ℚ)) 0 3 2 ⟨0, 1, 0⟩ =
        Resample.Loop.runInput 1 (fun _ _ => 0)
          (fun r _ => if (r : ℤ) < 3 then (r : ℚ) else 0) 0 3 2 ⟨0, 1, 0⟩ := by
  constructor
  · exact c6_amended_mute_range_behaviour.1 1 (fun _ _ => 0) (fun _ _ => 9) 1 2 2 ⟨0, 1, 0⟩ 0 0
      (by norm_num)
  · exact c6_amended_mute_range_behaviour.2 1 (fun _ _ => 0) (fun r _ => (r : ℚ))
      (fun r _ => if (r : ℤ) < 3 then (r : ℚ) else 0) 0 3 2 ⟨0, 1, 0⟩
      (fun r c h1 h2 => by simp [h2])

/-- The input chunk exactly as claim C3 words it: half-width
`transformLength / 2`, scaled by `1 / inputRatio` when the input resampler is
active (no rounding and no increment), centred on
`round(position - bufferStartPosition)`; `none` models the empty chunk for a
NaN position.  Bounds are exact rationals so that the claimed half-width needs
no rounding. -/
def c3ClaimChunk (r : Request) (sampleRates : SampleRates) (log2SynthesisHop : ℕ)
    (bufferStartPosition : ℚ) : Option (ℚ × ℚ) :=
  match r.position with
  | none => none
  | some p =>
    let ops := (Resample.Operations.setup sampleRates r.pitch r.resampleMode).1
    let transformLength : ℚ := 2 ^ (log2SynthesisHop + 3)
    let half : ℚ :=
      if ops.input.engaged then (transformLength / 2) * (1 / ops.input.ratio)
      else transformLength / 2
    let centre : ℚ := (roundAway (p - bufferStartPosition) : ℚ)
    some (centre - half, centre + half)

/-- Request at position 1000 with 96 kHz input resampled to 48 kHz output. -/
def c3Request : Request :=
  { position := some 1000, speed := some 1, pitch := 1, reset := false,
    resampleMode := ResampleMode.autoInOut }

/-- C3 counterexample: with `sampleRates = (96000, 48000)`, pitch 1 and
`autoInOut`, the input resampler engages with ratio 1/2; the claim predicts a
chunk `[1000 - 512, 1000 + 512) = [488, 1512)`, but `Grain::specify` computes
`halfInputFrameCount = round(256 / (1/2)) + 1 = 513` and returns
`[487, 1513)`. -/
theorem c3_counterexample_half_width :
    c3ClaimChunk c3Request ⟨96000, 48000⟩ 6 0 = some (488, 1512) ∧
      (Grain.specify c3Request Grain.init ⟨96000, 48000⟩ 6 0).2 = ⟨487, 1513⟩ := by
  constructor
  · norm_num [c3ClaimChunk, c3Request, Resample.Operations.setup, roundAway,
      autoInOut_ne_forceOut, autoInOut_ne_forceIn, autoInOut_ne_autoIn, autoInOut_ne_autoOut]
  · norm_num [Grain.specify, Grain.specifyCore, c3Request, Grain.init,
      Resample.Operations.setup, fsub, fadd, fmul, Option.map₂, truncQ, roundAway,
      autoInOut_ne_forceOut, autoInOut_ne_forceIn, autoInOut_ne_autoIn, autoInOut_ne_autoOut]

/-- The half-width of the input chunk as `Grain::specify` actually computes
it: `transformLength / 2` when the input resample ratio is 1, and otherwise
`round((transformLength / 2) / inputRatio) + 1`. -/
def c3half (r : Request) (sampleRates : SampleRates) (log2SynthesisHop : ℕ) : ℤ :=
  let ratio := (Resample.Operations.setup sampleRates r.pitch r.resampleMode).1.input.ratio
  let halfInputFrameCount0 : ℤ := 2 ^ (log2SynthesisHop + 3) / 2
  if ratio ≠ 1 then roundAway ((halfInputFrameCount0 : ℚ) / ratio) + 1
  else halfInputFrameCount0

/-- C3 amended: a grain is valid iff its request position is not NaN; for a
NaN position `Grain::specify` returns the empty chunk `[0, 0)`; otherwise it
returns `[centre - half, centre + half)` with
`centre = round(position - bufferStartPosition)` and `half` equal to
`transformLength / 2` when the input resample ratio is 1, and to
`round((transformLength / 2) / inputRatio) + 1` otherwise. -/
theorem c3_amended_input_chunk (r : Request) (previous : Grain)
    (sampleRates : SampleRates) (log2SynthesisHop : ℕ) (bufferStartPosition : ℚ) :
    ((Grain.specify r previous sampleRates log2SynthesisHop
        bufferStartPosition).1.request.position = none ↔ r.position = none) ∧
    (r.position = none →
      (Grain.specify r previous sampleRates log2SynthesisHop bufferStartPosition).2 =
        ⟨0, 0⟩) ∧
    ∀ p : ℚ, r.position = some p →
      (Grain.specify r previous sampleRates log2SynthesisHop bufferStartPosition).2 =
        ⟨roundAway (p - bufferStartPosition) - c3half r sampleRates log2SynthesisHop,
          roundAway (p - bufferStartPosition) + c3half r sampleRates log2SynthesisHop⟩ := by
  refine ⟨?_, ?_, ?_⟩
  · rw [specify_fst_request]
  · intro hp
    simp [Grain.specify, hp]
  · intro p hp
    simp only [Grain.specify, Grain.specifyCore, c3half, hp]
    rw [InputChunk.mk.injEq]
    constructor <;> omega

/-- Request at position 500 with no resampling, for the C3 witness. -/
def c3WitnessRequest : Request :=
  { position := some 500, speed := some 1, pitch := 1, reset := false,
    resampleMode := ResampleMode.autoInOut }

/-- Witness for C3 amended: with unity resample ratio and hop 6 the half-width
is 256 and the chunk at position 500 is `[244, 756)`. -/
theorem c3_amended_witness :
    (Grain.specify c3WitnessRequest Grain.init ⟨48000, 48000⟩ 6 0).2 = ⟨244, 756⟩ := by
  have h := (c3_amended_input_chunk c3WitnessRequest Grain.init ⟨48000, 48000⟩ 6 0).2.2 500 rfl
  rw [h]
  norm_num [c3half, c3WitnessRequest, Resample.Operations.setup, roundAway,
    autoInOut_ne_forceOut, autoInOut_ne_forceIn, autoInOut_ne_autoIn, autoInOut_ne_autoOut]

end Bungee
